import Mathlib

/-
Verification of the configuration-evaluation and synchronization engine of the
IBM App Configuration Python SDK (`ibm_appconfiguration`), against its
natural-language specification.

The development shallowly embeds the two core source units:
  - `configurations/configuration_handler.py` (rule evaluation, snapshot
    loading, cached lookup, pull retry policy, metering), and
  - the data model consumed by it (`Feature`, `Property`, `Segment`,
    `SegmentRules`), whose source is not part of the analysed tree and is
    therefore modelled from the specification where noted.

Python exceptions are modelled with an explicit result type (`PyResult`);
Python `dict`s are modelled as insertion-ordered association lists with
unique keys (`lookupD` / `insertD`).  Side effects that the claims observe
(metering records, logged errors, scheduled timers, snapshot writes, the
segment predicates actually consulted) are returned explicitly as data.
-/

namespace AppConfig

/-- JSON-like values carried by features, properties and rules (the Python
code treats these as opaque `Any` apart from the string comparison with
the `"$default"` sentinel). -/
inductive JsonVal where
  | null
  | bool (b : Bool)
  | num (n : Int)
  | str (s : String)
deriving DecidableEq, Repr

/-- Python exceptions that the embedded code can raise: `KeyError` from
`rules_map[i]`, `TypeError` from iterating a missing `segments` entry,
`AttributeError` from calling a method on `None`, and an opaque error from
inside a segment predicate. -/
inductive PyErr where
  | keyError (k : Nat)
  | typeError
  | attributeError
  | segmentError
deriving DecidableEq, Repr

/-- Result of a Python computation: a value, or a raised exception. -/
inductive PyResult (α : Type) where
  | ok (val : α)
  | error (err : PyErr)
deriving DecidableEq, Repr

/-- Entity attributes: the `entity_attributes` dict, as a list of key/value
pairs.  Only its emptiness and its use as input to segment predicates are
observable in the analysed code. -/
abbrev EntityAttrs := List (String × String)

/-- Lookup in an insertion-ordered association list (Python `d[k]` /
`k in d` / `d.get(k)`). -/
def lookupD {α β : Type} [DecidableEq α] : List (α × β) → α → Option β
  | [], _ => none
  | (k, v) :: rest, a => if a = k then some v else lookupD rest a

/-- Insertion into an insertion-ordered association list (Python
`d[k] = v`): an existing key keeps its position and gets the new value, a
new key is appended. -/
def insertD {α β : Type} [DecidableEq α] : List (α × β) → α → β → List (α × β)
  | [], k, v => [(k, v)]
  | (k', v') :: rest, k, v =>
      if k' = k then (k, v) :: rest else (k', v') :: insertD rest k v

/-- A raw snapshot entry handed to a model-class constructor: either the
entry the constructor yields, or a malformed entry on which the
constructor raises.  Modelled from the spec: the model classes themselves
(`Feature(...)`, `Property(...)`, `Segment(...)`, `SegmentRules(...)`)
are outside the analysed sources; only "constructor may raise" is
observable in `configuration_handler.py`. -/
inductive Raw (α : Type) where
  | ok (val : α)
  | malformed
deriving DecidableEq, Repr

/-- Whether a raw entry parses successfully. -/
def Raw.isOk {α : Type} : Raw α → Bool
  | .ok _ => true
  | .malformed => false

/-- Modelled from the spec: one rule level inside a `SegmentRules` object —
a dict whose `segments` entry (`rule.get('segments')`) names segment ids;
an absent entry yields `None`, over which iteration raises. -/
structure Level where
  segments : Option (List String)
deriving DecidableEq, Repr

/-- Modelled from the spec: a `SegmentRules` object — an `order` (1-based
rank), a list of rule levels, and a `value` which is a literal or the
`"$default"` sentinel. -/
structure SegmentRules where
  order : Nat
  rules : List Level
  value : JsonVal
deriving DecidableEq, Repr

/-- Modelled from the spec: a `Feature` object — id, enabled flag,
enabled/disabled values, and its raw segment-rule list. -/
structure Feature where
  feature_id : String
  enabled : Bool
  enabled_value : JsonVal
  disabled_value : JsonVal
  segment_rules : List (Raw SegmentRules)
deriving DecidableEq, Repr

/-- Modelled from the spec: a `Property` object — id, base value, and its
raw segment-rule list. -/
structure Property where
  property_id : String
  value : JsonVal
  segment_rules : List (Raw SegmentRules)
deriving DecidableEq, Repr

/-- Modelled from the spec: a `Segment` object — id plus its boolean rule
tree, abstracted as a predicate over entity attributes that may raise. -/
structure Segment where
  segment_id : String
  evaluate_rule : EntityAttrs → PyResult Bool

/-- Modelled from the spec: the default-segment sentinel
`config_constants.DEFAULT_SEGMENT_ID` recorded when no segment matched
(the constant's module is outside the analysed sources; only its use as a
fixed sentinel is observable). -/
def DEFAULT_SEGMENT_ID : String := "$$null$$"

abbrev SegMap := List (String × Segment)

abbrev RulesMap := List (Nat × SegmentRules)

/-- `ConfigurationHandler.__parse_rules`, inner loop body: each raw rule is
parsed inside a per-entry `try`; a parse failure is logged and skipped, a
success is stored under its order (overwriting a previous rule with the
same order). -/
def parse_rules_aux : List (Raw SegmentRules) → RulesMap → RulesMap
  | [], m => m
  | .ok sr :: rest, m => parse_rules_aux rest (insertD m sr.order sr)
  | .malformed :: rest, m => parse_rules_aux rest m

/-- `ConfigurationHandler.__parse_rules`: build the order-keyed rules map
from the raw segment-rule list, starting from an empty dict. -/
def parse_rules (segment_rules : List (Raw SegmentRules)) : RulesMap :=
  parse_rules_aux segment_rules []

/-- The last successfully-parsed rule in the list carrying a given order
value (later entries win), the behaviour `__parse_rules` realises through
dict overwriting. -/
def lastOrd : List (Raw SegmentRules) → Nat → Option SegmentRules
  | [], _ => none
  | .ok sr :: rest, o =>
      match lastOrd rest o with
      | some x => some x
      | none => if sr.order = o then some sr else none
  | .malformed :: rest, o => lastOrd rest o

/-- The `result_dict` built by `__evaluate_rules`: the matched segment id
(or the default sentinel) and the evaluated value. -/
structure ResultDict where
  evaluated_segment_id : String
  value : JsonVal
deriving DecidableEq, Repr

/-- One metering record as handed to `record_valuation` /
`Metering.add_metering` (the guid/environment/collection fields are fixed
per handler and omitted as they carry no claim-relevant information). -/
structure MeteringRecord where
  property_id : Option String
  feature_id : Option String
  entity_id : String
  evaluated_segment_id : String
deriving DecidableEq, Repr

/-- Observable outcome of one evaluation call: the returned value or the
exception propagated to the caller, the metering records emitted before
control left the call, and the segment ids whose predicates were
consulted via `__evaluate_segment` (in consultation order). -/
structure EvalOut where
  outcome : PyResult JsonVal
  records : List MeteringRecord
  consulted : List String
deriving DecidableEq, Repr

/-- `ConfigurationHandler.__evaluate_segment`: look the key up in the
segment map; a missing segment is a non-match, a present one defers to
its rule tree (which may raise). -/
def evaluate_segment (segment_map : SegMap) (segment_key : String)
    (entity_attributes : EntityAttrs) : PyResult Bool :=
  match lookupD segment_map segment_key with
  | some segment => segment.evaluate_rule entity_attributes
  | none => .ok false

/-- Lines 392-395 and 402 of `configuration_handler.py`:
`feature.get_enabled_value() if feature is not None else
property_obj.get_value()`; calling a method on `None` raises. -/
def fallback_value (feature : Option Feature) (property_obj : Option Property) :
    PyResult JsonVal :=
  match feature with
  | some f => .ok f.enabled_value
  | none =>
      match property_obj with
      | some p => .ok p.value
      | none => .error .attributeError

/-- The value a matched rule yields: the fallback for the `"$default"`
sentinel, the rule's literal value otherwise. -/
def rule_value (v : JsonVal) (feature : Option Feature)
    (property_obj : Option Property) : PyResult JsonVal :=
  if v = .str "$default" then fallback_value feature property_obj else .ok v

/-- Innermost loop of `__evaluate_rules` (`for _, segment_key in
enumerate(segments)`): consult each named segment in list order; on the
first match build the result dict; a raised exception aborts the
remaining segments of this level (it is caught one loop further out).
The second component is the list of consulted segment ids. -/
def eval_segments (segment_map : SegMap) (attrs : EntityAttrs)
    (feature : Option Feature) (property_obj : Option Property) (v : JsonVal) :
    List String → PyResult (Option ResultDict) × List String
  | [] => (.ok none, [])
  | k :: rest =>
      match evaluate_segment segment_map k attrs with
      | .error e => (.error e, [k])
      | .ok true =>
          (match rule_value v feature property_obj with
           | .ok w => (.ok (some ⟨k, w⟩), [k])
           | .error e => (.error e, [k]))
      | .ok false =>
          let r := eval_segments segment_map attrs feature property_obj v rest
          (r.1, k :: r.2)

/-- Middle loop of `__evaluate_rules` (`for level in range(...)`), whose
body is wrapped in `try/except`: a level that raises (including a level
whose `segments` entry is absent, making `enumerate(None)` raise) is
logged and treated as not matching, and evaluation continues with the
next level. -/
def eval_levels (segment_map : SegMap) (attrs : EntityAttrs)
    (feature : Option Feature) (property_obj : Option Property) (v : JsonVal) :
    List Level → Option ResultDict × List String
  | [] => (none, [])
  | lvl :: rest =>
      let step : PyResult (Option ResultDict) × List String :=
        match lvl.segments with
        | none => (.error .typeError, [])
        | some segs => eval_segments segment_map attrs feature property_obj v segs
      match step with
      | (.ok (some rd), tr) => (some rd, tr)
      | (.ok none, tr) =>
          let r := eval_levels segment_map attrs feature property_obj v rest
          (r.1, tr ++ r.2)
      | (.error _, tr) =>
          let r := eval_levels segment_map attrs feature property_obj v rest
          (r.1, tr ++ r.2)

/-- Outer loop of `__evaluate_rules` (`for i in range(1, len(rules_map) +
1)`), counting down the `n` remaining indices starting at `i`.  The
`rules_map[i]` subscript sits outside the per-level `try`, so a missing
order value raises a `KeyError` that propagates out of the loop (the
source's `if segment_rule is not None` guard is unreachable because the
subscript raises instead of yielding `None`). -/
def eval_rules_from (segment_map : SegMap) (attrs : EntityAttrs)
    (feature : Option Feature) (property_obj : Option Property)
    (rules_map : RulesMap) :
    Nat → Nat → PyResult (Option ResultDict) × List String
  | _, 0 => (.ok none, [])
  | i, n + 1 =>
      match lookupD rules_map i with
      | none => (.error (.keyError i), [])
      | some sr =>
          match eval_levels segment_map attrs feature property_obj sr.value sr.rules with
          | (some rd, tr) => (.ok (some rd), tr)
          | (none, tr) =>
              let r := eval_rules_from segment_map attrs feature property_obj
                rules_map (i + 1) n
              (r.1, tr ++ r.2)

/-- `ConfigurationHandler.__evaluate_rules`: walk the order-keyed rules
map; on no match fall back to the feature's enabled value / property's
base value with the default segment sentinel (line 402, outside any
`try`). -/
def evaluate_rules (segment_map : SegMap) (rules_map : RulesMap)
    (attrs : EntityAttrs) (feature : Option Feature)
    (property_obj : Option Property) : PyResult ResultDict × List String :=
  match eval_rules_from segment_map attrs feature property_obj rules_map
      1 rules_map.length with
  | (.ok (some rd), tr) => (.ok rd, tr)
  | (.ok none, tr) =>
      (match fallback_value feature property_obj with
       | .ok v => .ok ⟨DEFAULT_SEGMENT_ID, v⟩
       | .error e => .error e, tr)
  | (.error e, tr) => (.error e, tr)

/-- `ConfigurationHandler.feature_evaluation`: the `try` body computes the
outcome and (through the local `result_dict`) the segment id to meter;
the `finally` block emits exactly one metering record whether the body
returned or raised.  When `__evaluate_rules` raises, the caller's
`result_dict` still holds the default sentinel. -/
def feature_evaluation (segment_map : SegMap) (feature : Feature)
    (entity_id : String) (entity_attributes : Option EntityAttrs) : EvalOut :=
  let body : PyResult JsonVal × String × List String :=
    if feature.enabled then
      match entity_attributes with
      | none => (.ok feature.enabled_value, DEFAULT_SEGMENT_ID, [])
      | some attrs =>
          if attrs.length ≤ 0 then (.ok feature.enabled_value, DEFAULT_SEGMENT_ID, [])
          else if 0 < feature.segment_rules.length then
            let rules_map := parse_rules feature.segment_rules
            match evaluate_rules segment_map rules_map attrs (some feature) none with
            | (.ok rd, tr) => (.ok rd.value, rd.evaluated_segment_id, tr)
            | (.error e, tr) => (.error e, DEFAULT_SEGMENT_ID, tr)
          else (.ok feature.enabled_value, DEFAULT_SEGMENT_ID, [])
    else (.ok feature.disabled_value, DEFAULT_SEGMENT_ID, [])
  { outcome := body.1
    records := [⟨none, some feature.feature_id, entity_id, body.2.1⟩]
    consulted := body.2.2 }

/-- `ConfigurationHandler.property_evaluation`: as `feature_evaluation`
but without the enabled gate, falling back to the property's base
value. -/
def property_evaluation (segment_map : SegMap) (property_obj : Property)
    (entity_id : String) (entity_attributes : Option EntityAttrs) : EvalOut :=
  let body : PyResult JsonVal × String × List String :=
    match entity_attributes with
    | none => (.ok property_obj.value, DEFAULT_SEGMENT_ID, [])
    | some attrs =>
        if attrs.length ≤ 0 then (.ok property_obj.value, DEFAULT_SEGMENT_ID, [])
        else if 0 < property_obj.segment_rules.length then
          let rules_map := parse_rules property_obj.segment_rules
          match evaluate_rules segment_map rules_map attrs none (some property_obj) with
          | (.ok rd, tr) => (.ok rd.value, rd.evaluated_segment_id, tr)
          | (.error e, tr) => (.error e, DEFAULT_SEGMENT_ID, tr)
        else (.ok property_obj.value, DEFAULT_SEGMENT_ID, [])
  { outcome := body.1
    records := [⟨some property_obj.property_id, none, entity_id, body.2.1⟩]
    consulted := body.2.2 }

/-- Value found under a category key of a snapshot document: the key is
absent, or present but not an enumerable list (e.g. `null`, over which
`enumerate` raises before any entry is processed), or a list of raw
entries. -/
inductive CatVal (α : Type) where
  | absent
  | invalid
  | list (entries : List (Raw α))

/-- A persisted snapshot document with its three category keys. -/
structure Snapshot where
  features : CatVal Feature
  properties : CatVal Property
  segments : CatVal Segment

/-- The handler's three cache maps. -/
structure CacheState where
  feature_map : List (String × Feature)
  property_map : List (String × Property)
  segment_map : List (String × Segment)

/-- One category loop of `__load_configurations`: the whole `for` loop is
wrapped in a single `try/except`, so the first malformed entry aborts the
remainder of the list while the entries already inserted stay in the
map. -/
def load_entries {α : Type} (getId : α → String) :
    List (Raw α) → List (String × α) → List (String × α)
  | [], m => m
  | .ok a :: rest, m => load_entries getId rest (insertD m (getId a) a)
  | .malformed :: _, m => m

/-- One category of `__load_configurations`: an absent key leaves the
current map untouched; a present key resets the map to empty and then
runs the guarded loop (a non-enumerable value raises before the first
entry, leaving the map empty). -/
def load_category {α : Type} (getId : α → String) (cur : List (String × α)) :
    CatVal α → List (String × α)
  | .absent => cur
  | .invalid => []
  | .list l => load_entries getId l []

/-- `ConfigurationHandler.__load_configurations`: rebuild each category's
map from the persisted snapshot (`FileManager.read_files()`, modelled as
the `all_config` argument); a falsy document changes nothing. -/
def load_configurations (st : CacheState) (all_config : Option Snapshot) :
    CacheState :=
  match all_config with
  | none => st
  | some c =>
      { feature_map := load_category (fun f => f.feature_id) st.feature_map c.features
        property_map := load_category (fun p => p.property_id) st.property_map c.properties
        segment_map := load_category (fun s => s.segment_id) st.segment_map c.segments }

/-- Observable outcome of a cached-object accessor: the returned object
(or `none`), the cache state after the call, how many synchronous reloads
ran, and how many lookup errors were logged. -/
structure LookupOut (α : Type) where
  result : Option α
  state : CacheState
  reloads : Nat
  errors : Nat

/-- `ConfigurationHandler.get_feature`: return the cached object if
present; otherwise run one synchronous reload from the persisted
snapshot, retry the lookup once, and on a second miss log an error and
return `None`.  The function is total: every exception inside the reload
is caught there. -/
def get_feature (st : CacheState) (persisted : Option Snapshot)
    (feature_id : String) : LookupOut Feature :=
  match lookupD st.feature_map feature_id with
  | some f => ⟨some f, st, 0, 0⟩
  | none =>
      let st2 := load_configurations st persisted
      match lookupD st2.feature_map feature_id with
      | some f => ⟨some f, st2, 1, 0⟩
      | none => ⟨none, st2, 1, 1⟩

/-- `ConfigurationHandler.get_property`: as `get_feature` for the
property map. -/
def get_property (st : CacheState) (persisted : Option Snapshot)
    (property_id : String) : LookupOut Property :=
  match lookupD st.property_map property_id with
  | some p => ⟨some p, st, 0, 0⟩
  | none =>
      let st2 := load_configurations st persisted
      match lookupD st2.property_map property_id with
      | some p => ⟨some p, st2, 1, 0⟩
      | none => ⟨none, st2, 1, 1⟩

/-- `self.__retry_interval`, fixed at construction. -/
def RETRY_INTERVAL : Nat := 600

/-- One pull response: its HTTP status code and whether the body is
truthy (`__fetch_from_api` writes the snapshot exactly when the body is
truthy, whether or not `dict(...)` re-parsing succeeded). -/
structure Response where
  status : Nat
  body_truthy : Bool

/-- `200 <= status_code <= 299`. -/
def is2xx (status : Nat) : Bool := decide (200 ≤ status) && decide (status ≤ 299)

/-- Observable trace of one `__fetch_from_api` activation: synchronous
request attempts made, snapshot writes (each of which also reloads the
cache), errors surfaced via `Logger.error`, and the delays of the
`Timer`s scheduled for delayed asynchronous retries. -/
structure FetchTrace where
  attempts : Nat
  writes : Nat
  errors : Nat
  timers : List Nat
deriving DecidableEq, Repr

/-- `ConfigurationHandler.__fetch_from_api`: the first argument gives the
response to the n-th request of this activation.  The Lean pattern match
on the counter mirrors the source's `self.__retry_count -= 1` (with
counter `r + 1` the decremented value is `r`); on a non-2xx status the
call retries synchronously while the decremented counter is positive,
then resets it to 3, logs an error and schedules exactly one delayed
retry timer.  The result is the trace paired with the final counter
value. -/
def fetch_from_api (responses : Nat → Response) :
    Nat → Nat → FetchTrace × Nat
  | 0, attempt =>
      let resp := responses attempt
      if is2xx resp.status then
        (⟨1, if resp.body_truthy then 1 else 0, 0, []⟩, 0)
      else
        (⟨1, 0, 1, [RETRY_INTERVAL]⟩, 3)
  | r + 1, attempt =>
      let resp := responses attempt
      if is2xx resp.status then
        (⟨1, if resp.body_truthy then 1 else 0, 0, []⟩, r)
      else if 0 < r then
        let rest := fetch_from_api responses r (attempt + 1)
        (⟨rest.1.attempts + 1, rest.1.writes, rest.1.errors, rest.1.timers⟩, rest.2)
      else
        (⟨1, 0, 1, [RETRY_INTERVAL]⟩, 3)

/-- Whether a Python computation returned normally. -/
def isOkB : PyResult Bool → Bool
  | .ok _ => true
  | .error _ => false

/-- Whether a segment key matches the attributes without raising. -/
def matchesB (segment_map : SegMap) (attrs : EntityAttrs) (k : String) : Bool :=
  match evaluate_segment segment_map k attrs with
  | .ok true => true
  | _ => false

/-- Specification order of candidate segments: each carries the value of
the rule it came from. -/
abbrev Cand := String × JsonVal

/-- First candidate whose segment matches, in candidate order. -/
def firstMatch (segment_map : SegMap) (attrs : EntityAttrs) :
    List Cand → Option Cand
  | [] => none
  | kv :: rest =>
      if matchesB segment_map attrs kv.1 then some kv
      else firstMatch segment_map attrs rest

/-- The candidate keys consulted up to and including the first match (all
of them when nothing matches). -/
def scannedKeys (segment_map : SegMap) (attrs : EntityAttrs) :
    List Cand → List String
  | [] => []
  | kv :: rest =>
      if matchesB segment_map attrs kv.1 then [kv.1]
      else kv.1 :: scannedKeys segment_map attrs rest

/-- Candidates contributed by one segment-id list of one rule. -/
def seg_cands (v : JsonVal) : List String → List Cand
  | [] => []
  | k :: rest => (k, v) :: seg_cands v rest

/-- Candidates contributed by the levels of one rule, in level order. -/
def level_cands (v : JsonVal) : List Level → List Cand
  | [] => []
  | lvl :: rest => seg_cands v (lvl.segments.getD []) ++ level_cands v rest

/-- Candidates of the rules at orders `i, i+1, ..., i+n-1`, in ascending
order. -/
def candidate_list (rules_map : RulesMap) : Nat → Nat → List Cand
  | _, 0 => []
  | i, n + 1 =>
      (match lookupD rules_map i with
       | some sr => level_cands sr.value sr.rules
       | none => []) ++ candidate_list rules_map (i + 1) n

/-- All candidates of a rules map: ascending rule order, then level order
within a rule, then listed segment order within a level. -/
def candidates (rules_map : RulesMap) : List Cand :=
  candidate_list rules_map 1 rules_map.length

/-- The value yielded by a matched rule value `v` given fallback `fv`. -/
def valOf (fv v : JsonVal) : JsonVal := if v = .str "$default" then fv else v

/-- All candidate segment predicates evaluate without raising. -/
def allOkB (segment_map : SegMap) (attrs : EntityAttrs) (l : List Cand) : Bool :=
  l.all (fun kv => isOkB (evaluate_segment segment_map kv.1 attrs))

/-- The parsed order values cover the contiguous range `1..len`. -/
def contiguousB (rules_map : RulesMap) : Bool :=
  (List.range rules_map.length).all (fun j => (lookupD rules_map (j + 1)).isSome)

/-- Every parsed rule's levels all carry a `segments` entry. -/
def levelsOkB (rules_map : RulesMap) : Bool :=
  rules_map.all (fun e => e.2.rules.all (fun lvl => lvl.segments.isSome))

/-- A segment whose rule tree matches every attribute dict. -/
def segTrue : Segment := ⟨"s1", fun _ => .ok true⟩

/-- A one-segment cache for concrete evaluations. -/
def cSegMap : SegMap := [("s1", segTrue)]

/-- A non-empty attribute dict. -/
def cAttrs : EntityAttrs := [("plan", "gold")]

/-- A rule level naming segment `s1`. -/
def cLevel : Level := ⟨some ["s1"]⟩

/-- Enabled feature with one order-1 rule carrying the `"$default"`
sentinel. -/
def cFeatW : Feature := ⟨"f1", true, .str "on", .str "off",
  [.ok ⟨1, [cLevel], .str "$default"⟩]⟩

/-- Property with one order-1 rule carrying a literal value. -/
def cPropW : Property := ⟨"p1", .str "base", [.ok ⟨1, [cLevel], .str "pv"⟩]⟩

/-- Property whose single rule has order 2, leaving order 1 unpopulated. -/
def cPropGap : Property := ⟨"p2", .str "base", [.ok ⟨2, [cLevel], .str "v"⟩]⟩

/-- Feature whose single rule has order 2, leaving order 1 unpopulated. -/
def cFeatGap : Feature := ⟨"f2", true, .str "on", .str "off",
  [.ok ⟨2, [cLevel], .str "v"⟩]⟩

/-- Disabled feature that nevertheless carries a matching rule. -/
def cFeatDis : Feature := ⟨"fd", false, .str "on", .str "off",
  [.ok ⟨1, [cLevel], .str "v"⟩]⟩

/-- Plain features and a property for snapshot-loading fixtures. -/
def cf1 : Feature := ⟨"g1", true, .str "a", .str "b", []⟩

def cf2 : Feature := ⟨"g2", true, .str "c", .str "d", []⟩

def cPr1 : Property := ⟨"q1", .str "base1", []⟩

/-- Empty cache state. -/
def cSt0 : CacheState := ⟨[], [], []⟩

/-- Cache state holding one property. -/
def cStHit : CacheState := ⟨[], [("q1", cPr1)], []⟩

/-- Snapshot whose feature list has a malformed entry between two valid
ones. -/
def cSnapBad : Snapshot := ⟨.list [.ok cf1, .malformed, .ok cf2], .absent, .absent⟩

theorem lookupD_insertD {α β : Type} [DecidableEq α]
    (m : List (α × β)) (k : α) (v : β) (a : α) :
    lookupD (insertD m k v) a = if a = k then some v else lookupD m a := by
  induction m with
  | nil => simp [insertD, lookupD]
  | cons hd tl ih =>
      obtain ⟨k', v'⟩ := hd
      by_cases hk : k' = k
      · subst hk
        by_cases ha : a = k' <;> simp [insertD, lookupD, ha]
      · by_cases ha : a = k'
        · subst ha
          simp [insertD, lookupD, hk, Ne.symm hk]
        · simp [insertD, lookupD, hk, ha, ih]

theorem lookupD_mem {α β : Type} [DecidableEq α] :
    ∀ (m : List (α × β)) (k : α) (v : β), lookupD m k = some v → (k, v) ∈ m := by
  intro m
  induction m with
  | nil => intro k v h; simp [lookupD] at h
  | cons hd tl ih =>
      intro k v h
      obtain ⟨k', v'⟩ := hd
      by_cases hk : k = k'
      · subst hk
        simp [lookupD] at h
        simp [h]
      · simp [lookupD, hk] at h
        exact List.mem_cons_of_mem _ (ih k v h)

theorem parse_rules_aux_lookup (rules : List (Raw SegmentRules)) :
    ∀ (m : RulesMap) (o : Nat),
      lookupD (parse_rules_aux rules m) o =
        match lastOrd rules o with
        | some sr => some sr
        | none => lookupD m o := by
  induction rules with
  | nil => intro m o; simp [parse_rules_aux, lastOrd]
  | cons hd tl ih =>
      intro m o
      cases hd with
      | malformed => simp [parse_rules_aux, lastOrd, ih]
      | ok sr =>
          simp only [parse_rules_aux, lastOrd, ih]
          cases h : lastOrd tl o with
          | some x => simp
          | none =>
              simp only [lookupD_insertD]
              by_cases ho : o = sr.order
              · subst ho; simp
              · have hso : ¬sr.order = o := fun hh => ho hh.symm
                simp [ho, hso]

theorem isOkB_iff (x : PyResult Bool) : isOkB x = true ↔ ∃ b, x = .ok b := by
  cases x with
  | ok b => simp [isOkB]
  | error e => simp [isOkB]

theorem firstMatch_append (segment_map : SegMap) (attrs : EntityAttrs)
    (a b : List Cand) :
    firstMatch segment_map attrs (a ++ b) =
      match firstMatch segment_map attrs a with
      | some kv => some kv
      | none => firstMatch segment_map attrs b := by
  induction a with
  | nil => simp [firstMatch]
  | cons hd tl ih =>
      by_cases h : matchesB segment_map attrs hd.1 <;>
        simp [firstMatch, h, ih]

theorem scannedKeys_append (segment_map : SegMap) (attrs : EntityAttrs)
    (a b : List Cand) :
    scannedKeys segment_map attrs (a ++ b) =
      match firstMatch segment_map attrs a with
      | some _ => scannedKeys segment_map attrs a
      | none => scannedKeys segment_map attrs a ++ scannedKeys segment_map attrs b := by
  induction a with
  | nil => simp [firstMatch, scannedKeys]
  | cons hd tl ih =>
      by_cases h : matchesB segment_map attrs hd.1
      · simp [firstMatch, scannedKeys, h]
      · simp only [List.cons_append, firstMatch, scannedKeys, h, Bool.false_eq_true,
          if_false, List.append_eq]
        rw [ih]
        cases firstMatch segment_map attrs tl <;> simp

theorem rule_value_ok (feature : Option Feature) (property_obj : Option Property)
    (fv v : JsonVal) (h : fallback_value feature property_obj = .ok fv) :
    rule_value v feature property_obj = .ok (valOf fv v) := by
  by_cases hv : v = .str "$default" <;> simp [rule_value, valOf, hv, h]

theorem firstMatch_mem (segment_map : SegMap) (attrs : EntityAttrs) :
    ∀ (l : List Cand) (kv : Cand),
      firstMatch segment_map attrs l = some kv → kv ∈ l := by
  intro l
  induction l with
  | nil => intro kv h; simp [firstMatch] at h
  | cons hd tl ih =>
      intro kv h
      by_cases hm : matchesB segment_map attrs hd.1
      · simp [firstMatch, hm] at h
        simp [h]
      · simp [firstMatch, hm] at h
        exact List.mem_cons_of_mem _ (ih kv h)

theorem seg_cands_snd (v : JsonVal) :
    ∀ (segs : List String) (kv : Cand), kv ∈ seg_cands v segs → kv.2 = v := by
  intro segs
  induction segs with
  | nil => intro kv h; simp [seg_cands] at h
  | cons k rest ih =>
      intro kv h
      simp only [seg_cands, List.mem_cons] at h
      cases h with
      | inl h => simp [h]
      | inr h => exact ih kv h

theorem level_cands_snd (v : JsonVal) :
    ∀ (levels : List Level) (kv : Cand), kv ∈ level_cands v levels → kv.2 = v := by
  intro levels
  induction levels with
  | nil => intro kv h; simp [level_cands] at h
  | cons lvl rest ih =>
      intro kv h
      simp only [level_cands, List.mem_append] at h
      cases h with
      | inl h => exact seg_cands_snd v _ kv h
      | inr h => exact ih kv h

theorem eval_segments_spec (segment_map : SegMap) (attrs : EntityAttrs)
    (feature : Option Feature) (property_obj : Option Property) (v fv : JsonVal)
    (Hfb : fallback_value feature property_obj = .ok fv) :
    ∀ segs : List String,
      allOkB segment_map attrs (seg_cands v segs) = true →
      eval_segments segment_map attrs feature property_obj v segs =
        (match firstMatch segment_map attrs (seg_cands v segs) with
         | some kv => .ok (some ⟨kv.1, valOf fv v⟩)
         | none => .ok none,
         scannedKeys segment_map attrs (seg_cands v segs)) := by
  intro segs
  induction segs with
  | nil =>
      intro _
      simp [eval_segments, seg_cands, firstMatch, scannedKeys]
  | cons k rest ih =>
      intro Hok
      simp only [allOkB, seg_cands, List.all_cons, Bool.and_eq_true] at Hok
      obtain ⟨hk, hrest⟩ := Hok
      obtain ⟨b, hb⟩ := (isOkB_iff _).mp hk
      cases b with
      | true =>
          simp [eval_segments, seg_cands, firstMatch, scannedKeys, matchesB, hb,
            rule_value_ok feature property_obj fv v Hfb]
      | false =>
          have ih' := ih hrest
          simp only [eval_segments, hb, ih']
          simp [seg_cands, firstMatch, scannedKeys, matchesB, hb]

theorem eval_levels_spec (segment_map : SegMap) (attrs : EntityAttrs)
    (feature : Option Feature) (property_obj : Option Property) (v fv : JsonVal)
    (Hfb : fallback_value feature property_obj = .ok fv) :
    ∀ levels : List Level,
      levels.all (fun lvl => lvl.segments.isSome) = true →
      allOkB segment_map attrs (level_cands v levels) = true →
      eval_levels segment_map attrs feature property_obj v levels =
        (match firstMatch segment_map attrs (level_cands v levels) with
         | some kv => some ⟨kv.1, valOf fv v⟩
         | none => none,
         scannedKeys segment_map attrs (level_cands v levels)) := by
  intro levels
  induction levels with
  | nil =>
      intro _ _
      simp [eval_levels, level_cands, firstMatch, scannedKeys]
  | cons lvl rest ih =>
      intro Hlv Hok
      simp only [List.all_cons, Bool.and_eq_true] at Hlv
      obtain ⟨hlv, hlvrest⟩ := Hlv
      obtain ⟨segs, hsegs⟩ := Option.isSome_iff_exists.mp hlv
      have hcands : level_cands v (lvl :: rest) =
          seg_cands v segs ++ level_cands v rest := by
        simp [level_cands, hsegs]
      rw [hcands] at Hok ⊢
      simp only [allOkB, List.all_append, Bool.and_eq_true] at Hok
      obtain ⟨hok1, hok2⟩ := Hok
      have hseg := eval_segments_spec segment_map attrs feature property_obj v fv
        Hfb segs hok1
      have ih' := ih hlvrest hok2
      simp only [eval_levels, hsegs, hseg, ih']
      rw [firstMatch_append, scannedKeys_append]
      cases hfm : firstMatch segment_map attrs (seg_cands v segs) <;> simp

theorem eval_rules_from_spec (segment_map : SegMap) (attrs : EntityAttrs)
    (feature : Option Feature) (property_obj : Option Property)
    (rules_map : RulesMap) (fv : JsonVal)
    (Hfb : fallback_value feature property_obj = .ok fv)
    (Hl : levelsOkB rules_map = true) :
    ∀ (n i : Nat),
      (∀ j, i ≤ j → j < i + n → (lookupD rules_map j).isSome = true) →
      allOkB segment_map attrs (candidate_list rules_map i n) = true →
      eval_rules_from segment_map attrs feature property_obj rules_map i n =
        (match firstMatch segment_map attrs (candidate_list rules_map i n) with
         | some kv => .ok (some ⟨kv.1, valOf fv kv.2⟩)
         | none => .ok none,
         scannedKeys segment_map attrs (candidate_list rules_map i n)) := by
  intro n
  induction n with
  | zero =>
      intro i _ _
      simp [eval_rules_from, candidate_list, firstMatch, scannedKeys]
  | succ n ih =>
      intro i Hc Hok
      obtain ⟨sr, hsr⟩ := Option.isSome_iff_exists.mp
        (Hc i (Nat.le_refl i) (by omega))
      have hmem := lookupD_mem rules_map i sr hsr
      have hlv := List.all_eq_true.mp Hl (i, sr) hmem
      have hcands : candidate_list rules_map i (n + 1) =
          level_cands sr.value sr.rules ++ candidate_list rules_map (i + 1) n := by
        simp [candidate_list, hsr]
      rw [hcands] at Hok ⊢
      simp only [allOkB, List.all_append, Bool.and_eq_true] at Hok
      obtain ⟨hok1, hok2⟩ := Hok
      have hlev := eval_levels_spec segment_map attrs feature property_obj
        sr.value fv Hfb sr.rules hlv hok1
      have ih' := ih (i + 1) (fun j h1 h2 => Hc j (by omega) (by omega)) hok2
      simp only [eval_rules_from, hsr, hlev, ih']
      rw [firstMatch_append, scannedKeys_append]
      cases hfm : firstMatch segment_map attrs (level_cands sr.value sr.rules) with
      | some kv =>
          have hkv : kv.2 = sr.value :=
            level_cands_snd sr.value sr.rules kv
              (firstMatch_mem segment_map attrs _ kv hfm)
          simp [hkv]
      | none => simp

theorem evaluate_rules_spec (segment_map : SegMap) (rules_map : RulesMap)
    (attrs : EntityAttrs) (feature : Option Feature)
    (property_obj : Option Property) (fv : JsonVal)
    (Hc : contiguousB rules_map = true)
    (Hl : levelsOkB rules_map = true)
    (Hok : allOkB segment_map attrs (candidates rules_map) = true)
    (Hfb : fallback_value feature property_obj = .ok fv) :
    evaluate_rules segment_map rules_map attrs feature property_obj =
      (match firstMatch segment_map attrs (candidates rules_map) with
       | some kv => .ok ⟨kv.1, valOf fv kv.2⟩
       | none => .ok ⟨DEFAULT_SEGMENT_ID, fv⟩,
       scannedKeys segment_map attrs (candidates rules_map)) := by
  have Hc' : ∀ j, 1 ≤ j → j < 1 + rules_map.length →
      (lookupD rules_map j).isSome = true := by
    intro j h1 h2
    have hm : j - 1 ∈ List.range rules_map.length := List.mem_range.mpr (by omega)
    have hall := List.all_eq_true.mp Hc _ hm
    have hj : j - 1 + 1 = j := by omega
    rwa [hj] at hall
  have hmain := eval_rules_from_spec segment_map attrs feature property_obj
    rules_map fv Hfb Hl rules_map.length 1 Hc' Hok
  simp only [evaluate_rules, candidates] at hmain ⊢
  rw [hmain]
  cases hfm : firstMatch segment_map attrs
      (candidate_list rules_map 1 rules_map.length) <;> simp [Hfb]

theorem load_entries_truncated {α : Type} (getId : α → String)
    (post : List (Raw α)) :
    ∀ (pre : List (Raw α)) (m : List (String × α)),
      pre.all Raw.isOk = true →
      load_entries getId (pre ++ .malformed :: post) m =
        load_entries getId pre m := by
  intro pre
  induction pre with
  | nil => intro m _; simp [load_entries]
  | cons hd tl ih =>
      intro m H
      simp only [List.all_cons, Bool.and_eq_true] at H
      cases hd with
      | malformed => simp [Raw.isOk] at H
      | ok a =>
          simp only [List.cons_append, load_entries]
          exact ih _ H.2

/-- C10: for every list of raw segment rules, the parsed order-keyed map
binds each order value to the last parseable rule in the input list with
that order — duplicates overwrite, so evaluation (which reads rules only
through this map) never considers the earlier duplicate rules. -/
theorem parse_rules_last_wins (rules : List (Raw SegmentRules)) (o : Nat) :
    lookupD (parse_rules rules) o = lastOrd rules o := by
  have h := parse_rules_aux_lookup rules [] o
  simp only [parse_rules]
  rw [h]
  cases lastOrd rules o <;> simp [lookupD]

/-- C8: a reload leaves a category's map unchanged when its snapshot key
is absent, empties it when the key holds an empty list, and each
category's resulting map is independent of the other categories' keys. -/
theorem snapshot_category_frame (st : CacheState)
    (f f' : CatVal Feature) (p p' : CatVal Property) (s s' : CatVal Segment) :
    (load_configurations st (some ⟨.absent, p, s⟩)).feature_map = st.feature_map ∧
    (load_configurations st (some ⟨.list [], p, s⟩)).feature_map = [] ∧
    (load_configurations st (some ⟨f, .absent, s⟩)).property_map = st.property_map ∧
    (load_configurations st (some ⟨f, .list [], s⟩)).property_map = [] ∧
    (load_configurations st (some ⟨f, p, .absent⟩)).segment_map = st.segment_map ∧
    (load_configurations st (some ⟨f, p, .list []⟩)).segment_map = [] ∧
    (load_configurations st (some ⟨f, p, s⟩)).property_map =
      (load_configurations st (some ⟨f', p, s⟩)).property_map ∧
    (load_configurations st (some ⟨f, p, s⟩)).segment_map =
      (load_configurations st (some ⟨f', p, s⟩)).segment_map ∧
    (load_configurations st (some ⟨f, p, s⟩)).feature_map =
      (load_configurations st (some ⟨f, p', s⟩)).feature_map ∧
    (load_configurations st (some ⟨f, p, s⟩)).segment_map =
      (load_configurations st (some ⟨f, p', s⟩)).segment_map ∧
    (load_configurations st (some ⟨f, p, s⟩)).feature_map =
      (load_configurations st (some ⟨f, p, s'⟩)).feature_map ∧
    (load_configurations st (some ⟨f, p, s⟩)).property_map =
      (load_configurations st (some ⟨f, p, s'⟩)).property_map :=
  ⟨rfl, rfl, rfl, rfl, rfl, rfl, rfl, rfl, rfl, rfl, rfl, rfl⟩

/-- C3 counterexample: in a snapshot whose feature list is
`[valid g1, malformed, valid g2]`, the entry after the malformed one is
NOT loaded — the single `try/except` around the whole category loop
aborts the remainder of the category, so `g2` is missing although the
claim says every other entry of the same category is still loaded. -/
theorem malformed_entry_aborts_category :
    lookupD (load_configurations cSt0 (some cSnapBad)).feature_map "g1" = some cf1 ∧
    lookupD (load_configurations cSt0 (some cSnapBad)).feature_map "g2" = none :=
  ⟨rfl, rfl⟩

/-- C3 (amended): a malformed snapshot entry is skipped together with all
later entries of its own category — the reload behaves as if that
category's list ended just before the malformed entry; entries parsed
before it are kept and the other two categories are unaffected. -/
theorem malformed_entry_prefix_load (st : CacheState)
    (preF postF : List (Raw Feature)) (preP postP : List (Raw Property))
    (preS postS : List (Raw Segment))
    (fs : CatVal Feature) (ps : CatVal Property) (ss : CatVal Segment)
    (HF : preF.all Raw.isOk = true) (HP : preP.all Raw.isOk = true)
    (HS : preS.all Raw.isOk = true) :
    load_configurations st (some ⟨.list (preF ++ .malformed :: postF), ps, ss⟩) =
      load_configurations st (some ⟨.list preF, ps, ss⟩) ∧
    load_configurations st (some ⟨fs, .list (preP ++ .malformed :: postP), ss⟩) =
      load_configurations st (some ⟨fs, .list preP, ss⟩) ∧
    load_configurations st (some ⟨fs, ps, .list (preS ++ .malformed :: postS)⟩) =
      load_configurations st (some ⟨fs, ps, .list preS⟩) := by
  refine ⟨?_, ?_, ?_⟩
  · simp only [load_configurations, load_category]
    rw [load_entries_truncated (fun f => f.feature_id) postF preF [] HF]
  · simp only [load_configurations, load_category]
    rw [load_entries_truncated (fun p => p.property_id) postP preP [] HP]
  · simp only [load_configurations, load_category]
    rw [load_entries_truncated (fun s => s.segment_id) postS preS [] HS]

/-- C3 witness: loading `[valid g1, malformed, valid g2]` equals loading
just `[valid g1]`. -/
theorem malformed_entry_prefix_load_witness :
    ([Raw.ok cf1].all Raw.isOk = true) ∧
    load_configurations cSt0
        (some ⟨.list [.ok cf1, .malformed, .ok cf2], .absent, .absent⟩) =
      load_configurations cSt0 (some ⟨.list [.ok cf1], .absent, .absent⟩) :=
  ⟨rfl, (malformed_entry_prefix_load cSt0 [.ok cf1] [.ok cf2] [] [] [] []
      .absent .absent .absent rfl rfl rfl).1⟩

/-- C9: a cached id is returned without reloading; a missing id triggers
exactly one synchronous reload from the persisted snapshot and one retry
of the lookup, returning the object if the retry finds it and otherwise
`none` with one logged error.  Both accessors are total functions of the
state — no exception reaches the caller. -/
theorem lookup_lazy_reload (st : CacheState) (persisted : Option Snapshot)
    (fid pid : String) :
    (∀ f, lookupD st.feature_map fid = some f →
        get_feature st persisted fid = ⟨some f, st, 0, 0⟩) ∧
    (lookupD st.feature_map fid = none →
        get_feature st persisted fid =
          match lookupD (load_configurations st persisted).feature_map fid with
          | some f => ⟨some f, load_configurations st persisted, 1, 0⟩
          | none => ⟨none, load_configurations st persisted, 1, 1⟩) ∧
    (∀ pr, lookupD st.property_map pid = some pr →
        get_property st persisted pid = ⟨some pr, st, 0, 0⟩) ∧
    (lookupD st.property_map pid = none →
        get_property st persisted pid =
          match lookupD (load_configurations st persisted).property_map pid with
          | some pr => ⟨some pr, load_configurations st persisted, 1, 0⟩
          | none => ⟨none, load_configurations st persisted, 1, 1⟩) := by
  refine ⟨?_, ?_, ?_, ?_⟩
  · intro f h; simp [get_feature, h]
  · intro h; simp [get_feature, h]
  · intro pr h; simp [get_property, h]
  · intro h; simp [get_property, h]

/-- C9 witness: a miss on an empty cache reloads once and reports the
miss; a hit returns the cached object with no reload. -/
theorem lookup_lazy_reload_witness :
    lookupD cSt0.feature_map "nope" = none ∧
    get_feature cSt0 none "nope" = ⟨none, cSt0, 1, 1⟩ ∧
    lookupD cStHit.property_map "q1" = some cPr1 ∧
    get_property cStHit none "q1" = ⟨some cPr1, cStHit, 0, 0⟩ :=
  ⟨rfl, ((lookup_lazy_reload cSt0 none "nope" "nope").2.1 rfl).trans rfl,
   rfl, (lookup_lazy_reload cStHit none "q1" "q1").2.2.1 cPr1 rfl⟩

/-- C4: starting from a retry counter of 3, a pull whose every attempt
receives a non-2xx status makes exactly 3 synchronous request attempts
(the counter-governed bound), performs no snapshot write or cache reload,
then resets the counter to 3, surfaces exactly one error and schedules
exactly one delayed asynchronous retry with the fixed 600-unit
interval. -/
theorem pull_retry_policy (responses : Nat → Response)
    (H : ∀ n, is2xx (responses n).status = false) :
    fetch_from_api responses 3 0 = (⟨3, 0, 1, [RETRY_INTERVAL]⟩, 3) := by
  have h0 := H 0
  have h1 := H 1
  have h2 := H 2
  simp [fetch_from_api, h0, h1, h2]

/-- C4 witness: a server that always answers 500. -/
theorem pull_retry_policy_witness :
    (∀ n, is2xx ((fun _ : Nat => Response.mk 500 true) n).status = false) ∧
    fetch_from_api (fun _ : Nat => Response.mk 500 true) 3 0 = (⟨3, 0, 1, [600]⟩, 3) :=
  ⟨fun _ => rfl,
   pull_retry_policy (fun _ : Nat => Response.mk 500 true) (fun _ => rfl)⟩

/-- C5: every feature or property evaluation call emits exactly one
metering record before control leaves the call, on every input and every
outcome — including the outcomes that propagate an exception (the record
is emitted by the `finally` block). -/
theorem metering_exactly_once (segment_map : SegMap) (feature : Feature)
    (property_obj : Property) (entity_id : String)
    (entity_attributes : Option EntityAttrs) :
    (feature_evaluation segment_map feature entity_id
        entity_attributes).records.length = 1 ∧
    (property_evaluation segment_map property_obj entity_id
        entity_attributes).records.length = 1 :=
  ⟨rfl, rfl⟩

/-- C6: a disabled feature evaluates to its disabled value for every
entity and attribute dict, consults no segment rule, and meters the
default segment sentinel. -/
theorem disabled_feature_eval (segment_map : SegMap) (feature : Feature)
    (entity_id : String) (entity_attributes : Option EntityAttrs)
    (Hdis : feature.enabled = false) :
    feature_evaluation segment_map feature entity_id entity_attributes =
      ⟨.ok feature.disabled_value,
       [⟨none, some feature.feature_id, entity_id, DEFAULT_SEGMENT_ID⟩], []⟩ := by
  simp [feature_evaluation, Hdis]

/-- C6 witness: a disabled feature carrying a rule that would match. -/
theorem disabled_feature_eval_witness :
    cFeatDis.enabled = false ∧
    feature_evaluation cSegMap cFeatDis "ent" (some cAttrs) =
      ⟨.ok (.str "off"), [⟨none, some "fd", "ent", DEFAULT_SEGMENT_ID⟩], []⟩ :=
  ⟨rfl, disabled_feature_eval cSegMap cFeatDis "ent" (some cAttrs) rfl⟩

/-- C7: with a `None` or empty attribute dict, evaluation returns the
feature's enabled value (when enabled) or the property's base value
immediately, meters the default segment sentinel, and consults no
segment rule. -/
theorem empty_attributes_eval (segment_map : SegMap) (feature : Feature)
    (property_obj : Property) (entity_id : String)
    (Hen : feature.enabled = true) :
    feature_evaluation segment_map feature entity_id none =
      ⟨.ok feature.enabled_value,
       [⟨none, some feature.feature_id, entity_id, DEFAULT_SEGMENT_ID⟩], []⟩ ∧
    feature_evaluation segment_map feature entity_id (some []) =
      ⟨.ok feature.enabled_value,
       [⟨none, some feature.feature_id, entity_id, DEFAULT_SEGMENT_ID⟩], []⟩ ∧
    property_evaluation segment_map property_obj entity_id none =
      ⟨.ok property_obj.value,
       [⟨some property_obj.property_id, none, entity_id, DEFAULT_SEGMENT_ID⟩], []⟩ ∧
    property_evaluation segment_map property_obj entity_id (some []) =
      ⟨.ok property_obj.value,
       [⟨some property_obj.property_id, none, entity_id, DEFAULT_SEGMENT_ID⟩], []⟩ := by
  refine ⟨?_, ?_, rfl, rfl⟩ <;> simp [feature_evaluation, Hen]

/-- C7 witness: the enabled feature and the property both ignore their
configured rules without attributes. -/
theorem empty_attributes_eval_witness :
    cFeatW.enabled = true ∧
    feature_evaluation cSegMap cFeatW "ent" none =
      ⟨.ok (.str "on"), [⟨none, some "f1", "ent", DEFAULT_SEGMENT_ID⟩], []⟩ ∧
    property_evaluation cSegMap cPropW "ent" (some []) =
      ⟨.ok (.str "base"), [⟨some "p1", none, "ent", DEFAULT_SEGMENT_ID⟩], []⟩ :=
  ⟨rfl, (empty_attributes_eval cSegMap cFeatW cPropW "ent" rfl).1,
   (empty_attributes_eval cSegMap cFeatW cPropW "ent" rfl).2.2.2⟩

/-- C1 (amended): for every non-empty attribute dict and every rule set
whose parsed rules have order values covering exactly `1..n`, whose
levels all carry a `segments` entry, and whose consulted segment
predicates do not raise, feature and property evaluation return the
value determined by the first matching candidate segment — candidates
ordered by ascending rule order, then level order within a rule, then
listed segment order within a level — meter that segment's id, consult
no candidate beyond the first match, and map the `"$default"` sentinel
to the feature's enabled value / the property's base value while any
other rule value is returned literally. -/
theorem evaluation_first_match (segment_map : SegMap) (feature : Feature)
    (property_obj : Property) (entity_id : String) (attrs : EntityAttrs)
    (Hne : attrs ≠ [])
    (Hen : feature.enabled = true)
    (HcF : contiguousB (parse_rules feature.segment_rules) = true)
    (HlF : levelsOkB (parse_rules feature.segment_rules) = true)
    (HoF : allOkB segment_map attrs
      (candidates (parse_rules feature.segment_rules)) = true)
    (HcP : contiguousB (parse_rules property_obj.segment_rules) = true)
    (HlP : levelsOkB (parse_rules property_obj.segment_rules) = true)
    (HoP : allOkB segment_map attrs
      (candidates (parse_rules property_obj.segment_rules)) = true) :
    feature_evaluation segment_map feature entity_id (some attrs) =
      (match firstMatch segment_map attrs
          (candidates (parse_rules feature.segment_rules)) with
       | some kv =>
           ⟨.ok (valOf feature.enabled_value kv.2),
            [⟨none, some feature.feature_id, entity_id, kv.1⟩],
            scannedKeys segment_map attrs
              (candidates (parse_rules feature.segment_rules))⟩
       | none =>
           ⟨.ok feature.enabled_value,
            [⟨none, some feature.feature_id, entity_id, DEFAULT_SEGMENT_ID⟩],
            scannedKeys segment_map attrs
              (candidates (parse_rules feature.segment_rules))⟩) ∧
    property_evaluation segment_map property_obj entity_id (some attrs) =
      (match firstMatch segment_map attrs
          (candidates (parse_rules property_obj.segment_rules)) with
       | some kv =>
           ⟨.ok (valOf property_obj.value kv.2),
            [⟨some property_obj.property_id, none, entity_id, kv.1⟩],
            scannedKeys segment_map attrs
              (candidates (parse_rules property_obj.segment_rules))⟩
       | none =>
           ⟨.ok property_obj.value,
            [⟨some property_obj.property_id, none, entity_id, DEFAULT_SEGMENT_ID⟩],
            scannedKeys segment_map attrs
              (candidates (parse_rules property_obj.segment_rules))⟩) := by
  have hlen : ¬(attrs.length ≤ 0) := by
    cases attrs with
    | nil => exact absurd rfl Hne
    | cons a l => simp
  constructor
  · by_cases hrules : 0 < feature.segment_rules.length
    · have hfb : fallback_value (some feature) none = .ok feature.enabled_value := rfl
      have hspec := evaluate_rules_spec segment_map
        (parse_rules feature.segment_rules) attrs (some feature) none
        feature.enabled_value HcF HlF HoF hfb
      simp only [feature_evaluation, Hen, hlen, hrules, if_true, if_false,
        ite_true, ite_false, if_neg hlen, if_pos hrules, hspec]
      cases firstMatch segment_map attrs
          (candidates (parse_rules feature.segment_rules)) <;> simp
    · have h0 : feature.segment_rules = [] := by
        cases hsr : feature.segment_rules with
        | nil => rfl
        | cons a l => rw [hsr] at hrules; simp at hrules
      simp [feature_evaluation, Hen, hlen, h0, parse_rules, parse_rules_aux,
        candidates, candidate_list, firstMatch, scannedKeys]
  · by_cases hrules : 0 < property_obj.segment_rules.length
    · have hfb : fallback_value none (some property_obj) = .ok property_obj.value := rfl
      have hspec := evaluate_rules_spec segment_map
        (parse_rules property_obj.segment_rules) attrs none (some property_obj)
        property_obj.value HcP HlP HoP hfb
      simp only [property_evaluation, hlen, hrules, if_true, if_false,
        ite_true, ite_false, if_neg hlen, if_pos hrules, hspec]
      cases firstMatch segment_map attrs
          (candidates (parse_rules property_obj.segment_rules)) <;> simp
    · have h0 : property_obj.segment_rules = [] := by
        cases hsr : property_obj.segment_rules with
        | nil => rfl
        | cons a l => rw [hsr] at hrules; simp at hrules
      simp [property_evaluation, hlen, h0, parse_rules, parse_rules_aux,
        candidates, candidate_list, firstMatch, scannedKeys]

/-- C1 witness: segment `s1` matches; the feature's `"$default"` rule
yields the enabled value, the property's literal rule yields its own
value, and both meter `s1`. -/
theorem evaluation_first_match_witness :
    (cAttrs ≠ [] ∧ cFeatW.enabled = true ∧
     contiguousB (parse_rules cFeatW.segment_rules) = true ∧
     levelsOkB (parse_rules cFeatW.segment_rules) = true ∧
     allOkB cSegMap cAttrs (candidates (parse_rules cFeatW.segment_rules)) = true ∧
     contiguousB (parse_rules cPropW.segment_rules) = true ∧
     levelsOkB (parse_rules cPropW.segment_rules) = true ∧
     allOkB cSegMap cAttrs (candidates (parse_rules cPropW.segment_rules)) = true) ∧
    feature_evaluation cSegMap cFeatW "ent" (some cAttrs) =
      ⟨.ok (.str "on"), [⟨none, some "f1", "ent", "s1"⟩], ["s1"]⟩ ∧
    property_evaluation cSegMap cPropW "ent" (some cAttrs) =
      ⟨.ok (.str "pv"), [⟨some "p1", none, "ent", "s1"⟩], ["s1"]⟩ := by
  have h := evaluation_first_match cSegMap cFeatW cPropW "ent" cAttrs
    (by decide) rfl rfl rfl rfl rfl rfl rfl
  exact ⟨⟨by decide, rfl, rfl, rfl, rfl, rfl, rfl, rfl⟩,
    h.1.trans (by decide), h.2.trans (by decide)⟩

/-- C1 counterexample: a rule set whose only rule has order 2 (orders not
covering `1..n`).  The claim says evaluation returns the matching
segment's value `"v"` with matched segment `s1`; the code instead raises
`KeyError` at `rules_map[1]` and propagates it, metering the default
sentinel and consulting no segment. -/
theorem order_gap_counterexample :
    property_evaluation cSegMap cPropGap "ent" (some cAttrs) =
      ⟨.error (.keyError 1), [⟨some "p2", none, "ent", DEFAULT_SEGMENT_ID⟩], []⟩ ∧
    (property_evaluation cSegMap cPropGap "ent" (some cAttrs)).outcome ≠
      .ok (.str "v") := by
  constructor
  · rfl
  · decide

/-- C2: at a rules map whose single rule has order 2 the `rules_map[i]`
subscript (line 383, outside the per-level `try/except`) raises a
`KeyError` which the callers' `try/finally` (no `except` clause) lets
propagate, although the claim — and the source's own unreachable
`if segment_rule is not None` guard — require data-shape issues to
degrade to the default value.  The metering record is still emitted. -/
theorem order_gap_raises_to_caller :
    feature_evaluation cSegMap cFeatGap "ent" (some cAttrs) =
      ⟨.error (.keyError 1), [⟨none, some "f2", "ent", DEFAULT_SEGMENT_ID⟩], []⟩ :=
  rfl

end AppConfig
